import Mathlib

/-!
Shallow embedding of src/fred/core.py: the Fred API client with its
dispatch loop (Fred.get), error classification (Fred._handle_errors),
pacing (Fred.__throttle) and keyword normalization (Fred._get_keywords).

Time is modelled as a rational parameter, the HTTP transport as an oracle
from attempt index to response content, and the side effects of a call
(HTTP attempts, diagnostic prints, sleeps) as an explicit event trace.
-/

/-- A scalar JSON value as produced by json.loads, restricted to the shapes
the library inspects or forwards: numbers, strings, booleans. -/
inductive JVal where
  | num (n : Int)
  | str (s : String)
  | bool (b : Bool)
deriving DecidableEq

/-- The root element of an XML document as seen through
xml.etree.ElementTree.fromstring: tag name and attributes. -/
structure XmlElem where
  tag : String
  attrs : List (String × String)
deriving DecidableEq

/-- Raw response content together with its two decodings: json.loads for
structured mode and ET.fromstring for raw-text/XML mode. -/
structure Content where
  text : String
  jsonFields : List (String × JVal)
  xmlRoot : XmlElem
deriving DecidableEq

/-- Python dict with string keys: an insertion-ordered association list. -/
abbrev Dict := List (String × JVal)

/-- Lookup of key k in dict d (first matching entry). -/
def dictGet {α : Type} (d : List (String × α)) (k : String) : Option α :=
  match d.find? (fun p => p.1 == k) with
  | some p => some p.2
  | none => none

/-- Membership test: k in d. -/
def dictMem {α : Type} (d : List (String × α)) (k : String) : Bool :=
  (dictGet d k).isSome

/-- Removal d.pop(k): drop the entry for k. -/
def dictPop {α : Type} (d : List (String × α)) (k : String) : List (String × α) :=
  d.filter (fun p => p.1 != k)

/-- Assignment d[k] = v: replace in place when the key is present, append
at the end otherwise. -/
def dictSet {α : Type} (d : List (String × α)) (k : String) (v : α) : List (String × α) :=
  if dictMem d k then d.map (fun p => if p.1 = k then (p.1, v) else p)
  else d ++ [(k, v)]

/-- Python s.rstrip(1 character class, here the letter s): drop every
trailing occurrence of the letter s. -/
def rstripS (s : String) : String :=
  String.mk ((s.data.reverse.dropWhile (fun c => c == 's')).reverse)

/-- The Fred client instance: credential, output-format flag, endpoint. -/
structure Fred where
  api_key : String
  xml : Bool
  endpoint : String
deriving DecidableEq

/-- Fred.__init__: the environment variable FRED_API_KEY wins over the
explicit api_key argument whenever it is present. -/
def fredInit (envApiKey : Option String) (api_key : String) (xml_output : Bool) : Fred :=
  { api_key :=
      match envApiKey with
      | some k => k
      | none => api_key,
    xml := xml_output,
    endpoint := "https://api.stlouisfed.org/fred/" }

/-- Sequence v = d.pop(oldKey); d[newKey] = v, as used for the id, start,
end and sort renames (call sites guard on membership, so the none branch
is unreachable there). -/
def popAssign (d : Dict) (oldKey newKey : String) : Dict :=
  match dictGet d oldKey with
  | some v => dictSet (dictPop d oldKey) newKey v
  | none => d

/-- Fred._get_keywords: format the GET parameters from keywords. Returns
the parameter dict and the new value of self.xml (the source reassigns
self.xml to True when the caller passes the xml flag). -/
def getKeywords (apiKey : String) (selfXml : Bool) (location : String) (keywords : Dict) :
    Dict × Bool :=
  let kw1 :=
    if dictMem keywords "xml" then dictPop keywords "xml"
    else dictSet keywords "file_type" (JVal.str "json")
  let xml1 := if dictMem keywords "xml" then true else selfXml
  let kw2 :=
    if dictMem kw1 "id" then
      let loc := if location = "series" then location else rstripS location
      popAssign kw1 "id" (loc ++ "_id")
    else kw1
  let kw3 := if dictMem kw2 "start" then popAssign kw2 "start" "realtime_start" else kw2
  let kw4 := if dictMem kw3 "end" then popAssign kw3 "end" "realtime_end" else kw3
  let kw5 := if dictMem kw4 "sort" then popAssign kw4 "sort" "sort_order" else kw4
  (dictSet kw5 "api_key" (JVal.str apiKey), xml1)

/-- The decoded output of Fred._output: raw text in xml mode, the decoded
JSON mapping otherwise. -/
inductive Output where
  | raw (text : String)
  | parsed (fields : List (String × JVal))
deriving DecidableEq

/-- Fred._output applied to response content. -/
def fredOutput (selfXml : Bool) (c : Content) : Output :=
  if selfXml then Output.raw c.text else Output.parsed c.jsonFields

/-- Fred._handle_errors applied to self._output(content): in xml mode the
output is the raw text and ET.fromstring of that text is content.xmlRoot;
in structured mode the output is the decoded JSON mapping. Returns
(error_flag, error_code). -/
def handle_errors (selfXml : Bool) (c : Content) : Bool × Option JVal :=
  if selfXml then
    let root := c.xmlRoot
    if root.tag = "error" then
      if dictGet root.attrs "code" = some "429" ∨ dictGet root.attrs "code" = some "500" then
        (true, (dictGet root.attrs "code").map JVal.str)
      else (false, none)
    else (false, none)
  else
    match dictGet c.jsonFields "error_code" with
    | some v =>
      if v = JVal.num 429 ∨ v = JVal.num 500 then (true, some v) else (false, none)
    | none => (false, none)

/-- Observable side effects of a dispatch call: an HTTP attempt with its
index, the retry diagnostic print carrying the error code, the fixed retry
sleep, and the throttle print and sleep. -/
inductive Event where
  | attempt (i : Nat)
  | printRetry (code : Option JVal)
  | retrySleep (secs : Nat)
  | printThrottling
  | throttleSleep (delay : ℚ)
deriving DecidableEq

/-- Events produced by the throttle routine (print and sleep). -/
def Event.isThrottleEvent : Event → Bool
  | .printThrottling => true
  | .throttleSleep _ => true
  | _ => false

/-- The delay computed by Fred.__throttle: rate limit of 90 requests per
60 seconds; when the observed pace reaches the limit, target fitting
requestCount + 1 requests into the overall budget, else no delay. -/
def throttleDelay (requestCount : Nat) (elapsed : ℚ) : ℚ :=
  let rqPaceLimit : ℚ := 90 / 60
  let requestPace : ℚ := (requestCount : ℚ) / elapsed
  if requestPace ≥ rqPaceLimit then ((requestCount : ℚ) + 1) / rqPaceLimit - elapsed
  else 0

/-- The event trace of Fred.__throttle: a diagnostic print when pacing,
then a sleep of the computed delay (sleep(0) in the quiet branch). -/
def throttleRun (requestCount : Nat) (elapsed : ℚ) : List Event :=
  if (requestCount : ℚ) / elapsed ≥ 90 / 60 then
    [Event.printThrottling, Event.throttleSleep (throttleDelay requestCount elapsed)]
  else
    [Event.throttleSleep (throttleDelay requestCount elapsed)]

/-- The retry loop of Fred.get: each iteration makes the HTTP attempt at
the given index, decodes it, and on a recoverable error prints a
diagnostic, sleeps 300 seconds (sleep_secs in the source) and loops while
retries remain; fuel is max_retries minus request_retries at loop entry.
Returns the final decoded output, the number of attempts made and the
event trace. -/
def retryLoop (isXml : Bool) (responses : Nat → Content) : Nat → Nat → Output × Nat × List Event
  | idx, fuel =>
    let c := responses idx
    let output := fredOutput isXml c
    let he := handle_errors isXml c
    if he.1 then
      match fuel with
      | 0 => (output, 1, [Event.attempt idx, Event.printRetry he.2, Event.retrySleep 300])
      | f + 1 =>
        let r := retryLoop isXml responses (idx + 1) f
        (r.1, r.2.1 + 1,
          Event.attempt idx :: Event.printRetry he.2 :: Event.retrySleep 300 :: r.2.2)
    else (output, 1, [Event.attempt idx])

/-- Fred class-level state FIRST_REQUEST_TIMESTAMP and REQUEST_COUNT,
shared process-wide across every instance. -/
structure GlobalState where
  firstRequestTimestamp : Option ℚ
  requestCount : Nat
deriving DecidableEq

/-- Result of one Fred.get dispatch: the decoded output, the number of
HTTP attempts, the throttle and retry event traces, the instance after
the call (self.xml may have been reassigned), the class state after the
call, and the outgoing parameters and URL. -/
structure GetResult where
  output : Output
  attempts : Nat
  throttleEvents : List Event
  retryEvents : List Event
  client : Fred
  state : GlobalState
  params : Dict
  url : String
deriving DecidableEq

/-- Full event trace of a dispatch call, in program order. -/
def GetResult.events (r : GetResult) : List Event :=
  r.throttleEvents ++ r.retryEvents

/-- Fred._create_path: falsy components are dropped, the rest joined with
a slash after the endpoint. -/
def createPath (endpoint : String) (args : List (Option String)) : String :=
  endpoint ++ String.intercalate "/" ((args.filterMap id).filter (fun s => s != ""))

/-- Fred.get: one dispatch call. now models datetime.now() for this call,
responses is the HTTP transport oracle (attempt index to content). -/
def fredGet (self : Fred) (st : GlobalState) (now : ℚ) (throttle : Bool)
    (location : String) (restArgs : List (Option String)) (kwargs : Dict)
    (responses : Nat → Content) : GetResult :=
  let pk := getKeywords self.api_key self.xml location kwargs
  let self1 : Fred := { self with xml := pk.2 }
  let st1 : GlobalState :=
    match st.firstRequestTimestamp with
    | none => { st with firstRequestTimestamp := some now }
    | some _ => st
  let t0 := st1.firstRequestTimestamp.getD now
  let thr : List Event :=
    if st1.requestCount > 1 then
      if throttle then throttleRun st1.requestCount (now - t0) else []
    else []
  let r := retryLoop self1.xml responses 0 3
  { output := r.1,
    attempts := r.2.1,
    throttleEvents := thr,
    retryEvents := r.2.2,
    client := self1,
    state := { st1 with requestCount := st1.requestCount + r.2.1 },
    params := pk.1,
    url := createPath self.endpoint (some location :: restArgs) }

/-- One dispatch call in a process history: the client instance it is made
on, the time it happens, and the call arguments. -/
structure CallSpec where
  client : Fred
  now : ℚ
  throttle : Bool
  location : String
  restArgs : List (Option String)
  kwargs : Dict
  responses : Nat → Content

/-- Run a sequence of dispatch calls against the shared class state,
returning the final state and the total number of HTTP attempts made. -/
def runCalls (st : GlobalState) : List CallSpec → GlobalState × Nat
  | [] => (st, 0)
  | c :: cs =>
    let r := fredGet c.client st c.now c.throttle c.location c.restArgs c.kwargs c.responses
    let rest := runCalls r.state cs
    (rest.1, r.attempts + rest.2)

/-- A client built with no environment variable, credential K, structured
output mode. -/
def fred0 : Fred := fredInit none "K" false

/-- A successful JSON response body. -/
def okContent : Content :=
  { text := "RAW",
    jsonFields := [("ok", JVal.num 1)],
    xmlRoot := { tag := "result", attrs := [] } }

/-- A rate-limit error response: error_code 429 in the JSON body. -/
def content429 : Content :=
  { text := "E429",
    jsonFields := [("error_code", JVal.num 429)],
    xmlRoot := { tag := "error", attrs := [("code", "429")] } }

/-- A bad-request error response: error_code 400 in the JSON body. -/
def content400 : Content :=
  { text := "E400",
    jsonFields := [("error_code", JVal.num 400)],
    xmlRoot := { tag := "error", attrs := [("code", "400")] } }

/-- A concrete first call for process histories: time 5, no throttling. -/
def callA : CallSpec :=
  { client := fred0, now := 5, throttle := false, location := "series",
    restArgs := [], kwargs := [], responses := fun _ => okContent }

/-- A concrete second call for process histories: time 9, throttling on. -/
def callB : CallSpec :=
  { client := fred0, now := 9, throttle := true, location := "sources",
    restArgs := [], kwargs := [], responses := fun _ => content429 }

/-! ### Dictionary lemmas -/

theorem dictGet_cons {α : Type} (a : String × α) (d : List (String × α)) (k : String) :
    dictGet (a :: d) k = if a.1 = k then some a.2 else dictGet d k := by
  by_cases h : a.1 = k <;> simp [dictGet, List.find?_cons, h]

theorem dictGet_pop_eq {α : Type} (d : List (String × α)) (k : String) :
    dictGet (dictPop d k) k = none := by
  induction d with
  | nil => rfl
  | cons a d ih =>
    by_cases h : a.1 = k <;> simp [dictPop, List.filter_cons, h, dictGet_cons] <;>
      simpa [dictPop] using ih

theorem dictGet_pop_ne {α : Type} (d : List (String × α)) (k j : String) (h : k ≠ j) :
    dictGet (dictPop d k) j = dictGet d j := by
  induction d with
  | nil => rfl
  | cons a d ih =>
    by_cases h1 : a.1 = k
    · have h2 : a.1 ≠ j := by rw [h1]; exact h
      rw [show dictPop (a :: d) k = dictPop d k from by
            simp [dictPop, List.filter_cons, h1],
          ih, dictGet_cons, if_neg h2]
    · rw [show dictPop (a :: d) k = a :: dictPop d k from by
            simp [dictPop, List.filter_cons, h1],
          dictGet_cons, dictGet_cons]
      by_cases h2 : a.1 = j
      · rw [if_pos h2, if_pos h2]
      · rw [if_neg h2, if_neg h2, ih]

theorem dictGet_map_set {α : Type} (d : List (String × α)) (k : String) (v : α)
    (hm : dictMem d k = true) :
    dictGet (d.map (fun p => if p.1 = k then (p.1, v) else p)) k = some v := by
  induction d with
  | nil => simp [dictMem, dictGet] at hm
  | cons a d ih =>
    by_cases h : a.1 = k
    · simp [List.map_cons, dictGet_cons, h]
    · have hm2 : dictMem d k = true := by
        simpa [dictMem, dictGet_cons, h] using hm
      simp [List.map_cons, dictGet_cons, h, ih hm2]

theorem dictGet_append_single {α : Type} (d : List (String × α)) (k : String) (v : α)
    (hm : dictMem d k = false) :
    dictGet (d ++ [(k, v)]) k = some v := by
  induction d with
  | nil => simp [dictGet_cons]
  | cons a d ih =>
    have h : a.1 ≠ k := by
      intro hh
      simp [dictMem, dictGet_cons, hh] at hm
    have hm2 : dictMem d k = false := by
      simpa [dictMem, dictGet_cons, h] using hm
    simp [List.cons_append, dictGet_cons, h, ih hm2]

theorem dictGet_set_eq {α : Type} (d : List (String × α)) (k : String) (v : α) :
    dictGet (dictSet d k v) k = some v := by
  unfold dictSet
  cases hm : dictMem d k with
  | true => simp [hm, dictGet_map_set d k v hm]
  | false => simp [hm, dictGet_append_single d k v hm]

theorem dictGet_map_set_ne {α : Type} (d : List (String × α)) (k j : String) (v : α)
    (h : k ≠ j) :
    dictGet (d.map (fun p => if p.1 = k then (p.1, v) else p)) j = dictGet d j := by
  induction d with
  | nil => rfl
  | cons a d ih =>
    rw [List.map_cons]
    by_cases h1 : a.1 = k
    · have h2 : a.1 ≠ j := by rw [h1]; exact h
      rw [if_pos h1, dictGet_cons, dictGet_cons, if_neg h2, if_neg h2, ih]
    · rw [if_neg h1, dictGet_cons, dictGet_cons]
      by_cases h2 : a.1 = j
      · rw [if_pos h2, if_pos h2]
      · rw [if_neg h2, if_neg h2, ih]

theorem dictGet_append_single_ne {α : Type} (d : List (String × α)) (k j : String) (v : α)
    (h : k ≠ j) :
    dictGet (d ++ [(k, v)]) j = dictGet d j := by
  induction d with
  | nil => simp [dictGet_cons, h, dictGet]
  | cons a d ih => by_cases h1 : a.1 = j <;> simp [List.cons_append, dictGet_cons, h1, ih]

theorem dictGet_set_ne {α : Type} (d : List (String × α)) (k j : String) (v : α)
    (h : k ≠ j) :
    dictGet (dictSet d k v) j = dictGet d j := by
  unfold dictSet
  cases hm : dictMem d k with
  | true => simp [dictGet_map_set_ne d k j v h]
  | false => simp [dictGet_append_single_ne d k j v h]

theorem dictGet_popAssign_ne (d : Dict) (oldKey newKey j : String)
    (h1 : oldKey ≠ j) (h2 : newKey ≠ j) :
    dictGet (popAssign d oldKey newKey) j = dictGet d j := by
  unfold popAssign
  cases hv : dictGet d oldKey with
  | none => rfl
  | some v => rw [dictGet_set_ne _ _ _ _ h2, dictGet_pop_ne _ _ _ h1]

theorem dictGet_condPopAssign_ne (d : Dict) (oldKey newKey j : String)
    (h1 : oldKey ≠ j) (h2 : newKey ≠ j) :
    dictGet (if dictMem d oldKey then popAssign d oldKey newKey else d) j = dictGet d j := by
  split
  · exact dictGet_popAssign_ne d oldKey newKey j h1 h2
  · rfl

theorem dictMem_of_get {α : Type} (d : List (String × α)) (k : String) (v : α)
    (h : dictGet d k = some v) : dictMem d k = true := by
  unfold dictMem
  rw [h]
  rfl

/-- A string of the form s ++ "_id" differs from any string whose last
three characters are not underscore, i, d. -/
theorem append_id_ne (s t : String) (h : t.data.reverse.take 3 ≠ ['d', 'i', '_']) :
    s ++ "_id" ≠ t := by
  intro heq
  apply h
  rw [← heq, String.data_append, List.reverse_append]
  rfl

/-- The output-format flag returned by _get_keywords: forced to True when
the caller passes the xml flag, unchanged otherwise. -/
theorem getKeywords_xml_eq (apiKey : String) (sx : Bool) (loc : String) (kw : Dict) :
    (getKeywords apiKey sx loc kw).2 = (if dictMem kw "xml" then true else sx) := rfl

/-- The id rename inside _get_keywords: with the key id present in the
caller keywords, the outgoing parameters hold the old value under the key
location-with-trailing-s-stripped (location kept verbatim when it is
exactly series) followed by _id, and the key id itself is gone. -/
theorem getKeywords_id_rename (apiKey : String) (sx : Bool) (location : String)
    (kwargs : Dict) (v : JVal) (h : dictGet kwargs "id" = some v) :
    dictGet (getKeywords apiKey sx location kwargs).1
        ((if location = "series" then location else rstripS location) ++ "_id") = some v
    ∧ dictGet (getKeywords apiKey sx location kwargs).1 "id" = none := by
  have h1get : dictGet (if dictMem kwargs "xml" then dictPop kwargs "xml"
      else dictSet kwargs "file_type" (JVal.str "json")) "id" = some v := by
    split
    · rw [dictGet_pop_ne _ _ _ (by decide)]
      exact h
    · rw [dictGet_set_ne _ _ _ _ (by decide)]
      exact h
  have hm1 : dictMem (if dictMem kwargs "xml" then dictPop kwargs "xml"
      else dictSet kwargs "file_type" (JVal.str "json")) "id" = true :=
    dictMem_of_get _ _ _ h1get
  constructor
  · simp only [getKeywords]
    rw [dictGet_set_ne _ _ _ _ (Ne.symm (append_id_ne _ "api_key" (by decide))),
        dictGet_condPopAssign_ne _ _ _ _ (Ne.symm (append_id_ne _ "sort" (by decide)))
          (Ne.symm (append_id_ne _ "sort_order" (by decide))),
        dictGet_condPopAssign_ne _ _ _ _ (Ne.symm (append_id_ne _ "end" (by decide)))
          (Ne.symm (append_id_ne _ "realtime_end" (by decide))),
        dictGet_condPopAssign_ne _ _ _ _ (Ne.symm (append_id_ne _ "start" (by decide)))
          (Ne.symm (append_id_ne _ "realtime_start" (by decide))),
        if_pos hm1]
    unfold popAssign
    rw [h1get]
    exact dictGet_set_eq _ _ _
  · simp only [getKeywords]
    rw [dictGet_set_ne _ _ _ _ (by decide : ("api_key" : String) ≠ "id"),
        dictGet_condPopAssign_ne _ _ _ _ (by decide : ("sort" : String) ≠ "id")
          (by decide : ("sort_order" : String) ≠ "id"),
        dictGet_condPopAssign_ne _ _ _ _ (by decide : ("end" : String) ≠ "id")
          (by decide : ("realtime_end" : String) ≠ "id"),
        dictGet_condPopAssign_ne _ _ _ _ (by decide : ("start" : String) ≠ "id")
          (by decide : ("realtime_start" : String) ≠ "id"),
        if_pos hm1]
    unfold popAssign
    rw [h1get]
    rw [dictGet_set_ne _ _ _ _ (append_id_ne _ "id" (by decide))]
    exact dictGet_pop_eq _ _

/-- C7: for every parameter mapping containing the key id, normalization
renames it to resource_id with the resource name's trailing s stripped
unless the resource name is exactly series; with resource series the
renamed key is series_id, with resource releases it is release_id, and
the associated value is unchanged. -/
theorem c7_id_rename (apiKey : String) (sx : Bool) (kwargs : Dict) (v : JVal)
    (h : dictGet kwargs "id" = some v) :
    (∀ location : String,
      dictGet (getKeywords apiKey sx location kwargs).1
          ((if location = "series" then location else rstripS location) ++ "_id") = some v
      ∧ dictGet (getKeywords apiKey sx location kwargs).1 "id" = none)
    ∧ dictGet (getKeywords apiKey sx "series" kwargs).1 "series_id" = some v
    ∧ dictGet (getKeywords apiKey sx "releases" kwargs).1 "release_id" = some v := by
  refine ⟨fun location => getKeywords_id_rename apiKey sx location kwargs v h, ?_, ?_⟩
  · have h2 := (getKeywords_id_rename apiKey sx "series" kwargs v h).1
    rwa [(by decide : ((if ("series" : String) = "series" then ("series" : String)
        else rstripS "series") ++ "_id") = "series_id")] at h2
  · have h2 := (getKeywords_id_rename apiKey sx "releases" kwargs v h).1
    rwa [(by decide : ((if ("releases" : String) = "series" then ("releases" : String)
        else rstripS "releases") ++ "_id") = "release_id")] at h2

/-- C7 witness: a concrete mapping with id 125. -/
theorem c7_id_rename_witness :
    dictGet ([("id", JVal.num 125)] : Dict) "id" = some (JVal.num 125)
    ∧ dictGet (getKeywords "K" false "series" [("id", JVal.num 125)]).1 "series_id"
        = some (JVal.num 125)
    ∧ dictGet (getKeywords "K" false "releases" [("id", JVal.num 125)]).1 "release_id"
        = some (JVal.num 125) :=
  ⟨by decide,
    (c7_id_rename "K" false [("id", JVal.num 125)] (JVal.num 125) (by decide)).2.1,
    (c7_id_rename "K" false [("id", JVal.num 125)] (JVal.num 125) (by decide)).2.2⟩

/-- C8: the outgoing api_key parameter of every dispatch call equals the
configured credential, whatever the caller supplied under that name. -/
theorem c8_api_key_overwritten (self : Fred) (st : GlobalState) (now : ℚ) (thr : Bool)
    (location : String) (restArgs : List (Option String)) (kwargs : Dict)
    (responses : Nat → Content) :
    dictGet (fredGet self st now thr location restArgs kwargs responses).params "api_key"
      = some (JVal.str self.api_key) := by
  show dictGet (getKeywords self.api_key self.xml location kwargs).1 "api_key" = _
  simp only [getKeywords]
  exact dictGet_set_eq _ _ _

/-- C9: the constructor credential equals the FRED_API_KEY environment
variable value when present, and the explicit argument only when the
variable is absent. -/
theorem c9_credential_source (envApiKey : Option String) (api_key : String)
    (xml_output : Bool) :
    (∀ va : String, envApiKey = some va →
      (fredInit envApiKey api_key xml_output).api_key = va)
    ∧ (envApiKey = none → (fredInit envApiKey api_key xml_output).api_key = api_key) := by
  constructor
  · intro va hv
    subst hv
    rfl
  · intro hv
    subst hv
    rfl

/-- C9 witness: concrete environment present and absent. -/
theorem c9_credential_source_witness :
    (some "ENVKEY" = some "ENVKEY"
      ∧ (fredInit (some "ENVKEY") "argkey" false).api_key = "ENVKEY")
    ∧ ((none : Option String) = none
      ∧ (fredInit none "argkey" false).api_key = "argkey") :=
  ⟨⟨rfl, (c9_credential_source (some "ENVKEY") "argkey" false).1 "ENVKEY" rfl⟩,
    ⟨rfl, (c9_credential_source none "argkey" false).2 rfl⟩⟩

/-- C2 counterexample: a client constructed in structured mode that is
passed the xml flag on one call observes raw-text mode on a later call on
the same instance as well, so the output-format flag is neither immutable
nor per-call. -/
theorem c2_counterexample :
    fred0.xml = false
    ∧ (fredGet fred0 { firstRequestTimestamp := none, requestCount := 0 } 0 false
        "series" [] [("xml", JVal.bool true)] (fun _ => okContent)).client.xml = true
    ∧ (fredGet (fredGet fred0 { firstRequestTimestamp := none, requestCount := 0 } 0 false
          "series" [] [("xml", JVal.bool true)] (fun _ => okContent)).client
        { firstRequestTimestamp := some 0, requestCount := 1 } 1 false
        "series" [] [] (fun _ => okContent)).output = Output.raw okContent.text := by
  decide

/-- C2 amended: the credential is immutable after construction, but the
output-format flag is not: a caller-supplied xml flag switches the stored
mode to raw-text for this call and every later call on the instance,
while a call without the flag leaves the stored mode unchanged. -/
theorem c2_xml_flag_persists (self : Fred) (st : GlobalState) (now : ℚ) (thr : Bool)
    (location : String) (restArgs : List (Option String)) (kwargs : Dict)
    (responses : Nat → Content) :
    (fredGet self st now thr location restArgs kwargs responses).client.api_key
        = self.api_key
    ∧ (dictMem kwargs "xml" = true →
        (fredGet self st now thr location restArgs kwargs responses).client.xml = true)
    ∧ (dictMem kwargs "xml" = false →
        (fredGet self st now thr location restArgs kwargs responses).client.xml = self.xml) := by
  refine ⟨rfl, fun hmem => ?_, fun hmem => ?_⟩
  · have hx : (fredGet self st now thr location restArgs kwargs responses).client.xml
        = (getKeywords self.api_key self.xml location kwargs).2 := rfl
    rw [hx, getKeywords_xml_eq, if_pos hmem]
  · have hx : (fredGet self st now thr location restArgs kwargs responses).client.xml
        = (getKeywords self.api_key self.xml location kwargs).2 := rfl
    rw [hx, getKeywords_xml_eq, if_neg (by simp [hmem])]

/-- C2 amended witness: a call with the xml flag and a call without it. -/
theorem c2_xml_flag_persists_witness :
    dictMem ([("xml", JVal.bool true)] : Dict) "xml" = true
    ∧ (fredGet fred0 { firstRequestTimestamp := none, requestCount := 0 } 0 false
        "series" [] [("xml", JVal.bool true)] (fun _ => okContent)).client.xml = true
    ∧ dictMem ([] : Dict) "xml" = false
    ∧ (fredGet fred0 { firstRequestTimestamp := none, requestCount := 0 } 0 false
        "series" [] [] (fun _ => okContent)).client.xml = fred0.xml :=
  ⟨by decide,
    (c2_xml_flag_persists fred0 { firstRequestTimestamp := none, requestCount := 0 } 0 false
      "series" [] [("xml", JVal.bool true)] (fun _ => okContent)).2.1 (by decide),
    by decide,
    (c2_xml_flag_persists fred0 { firstRequestTimestamp := none, requestCount := 0 } 0 false
      "series" [] [] (fun _ => okContent)).2.2 (by decide)⟩

/-- C3: with a positive elapsed time, when the observed pace reaches the
budget of 90 requests per 60 seconds the slept delay is exactly
(requestCount + 1) divided by the budget minus elapsed, and the delay the
throttle sleeps is never negative, so the sleep never fails. -/
theorem c3_throttle_delay (requestCount : Nat) (elapsed : ℚ) (hpos : 0 < elapsed) :
    ((requestCount : ℚ) / elapsed ≥ 90 / 60 →
      throttleDelay requestCount elapsed = ((requestCount : ℚ) + 1) / (90 / 60) - elapsed)
    ∧ 0 ≤ throttleDelay requestCount elapsed := by
  constructor
  · intro hp
    simp only [throttleDelay]
    rw [if_pos hp]
  · simp only [throttleDelay]
    by_cases hp : (requestCount : ℚ) / elapsed ≥ 90 / 60
    · rw [if_pos hp]
      have h1 : (90 / 60 : ℚ) * elapsed ≤ (requestCount : ℚ) := (le_div_iff₀ hpos).mp hp
      rw [sub_nonneg, le_div_iff₀ (by norm_num : (0 : ℚ) < 90 / 60)]
      linarith
    · rw [if_neg hp]

/-- C3 witness: three requests in one second, past the pace budget. -/
theorem c3_throttle_delay_witness :
    (0 : ℚ) < 1
    ∧ ((3 : Nat) : ℚ) / 1 ≥ 90 / 60
    ∧ throttleDelay 3 1 = (((3 : Nat) : ℚ) + 1) / (90 / 60) - 1
    ∧ 0 ≤ throttleDelay 3 1 :=
  ⟨by norm_num, by norm_num,
    (c3_throttle_delay 3 1 (by norm_num)).1 (by norm_num),
    (c3_throttle_delay 3 1 (by norm_num)).2⟩

/-! ### Dispatch loop lemmas -/

theorem fredGet_attempts_def (self : Fred) (st : GlobalState) (now : ℚ) (thr : Bool)
    (location : String) (restArgs : List (Option String)) (kwargs : Dict)
    (responses : Nat → Content) :
    (fredGet self st now thr location restArgs kwargs responses).attempts
      = (retryLoop (getKeywords self.api_key self.xml location kwargs).2
          responses 0 3).2.1 := rfl

theorem fredGet_retryEvents_def (self : Fred) (st : GlobalState) (now : ℚ) (thr : Bool)
    (location : String) (restArgs : List (Option String)) (kwargs : Dict)
    (responses : Nat → Content) :
    (fredGet self st now thr location restArgs kwargs responses).retryEvents
      = (retryLoop (getKeywords self.api_key self.xml location kwargs).2
          responses 0 3).2.2 := rfl

theorem fredGet_output_def (self : Fred) (st : GlobalState) (now : ℚ) (thr : Bool)
    (location : String) (restArgs : List (Option String)) (kwargs : Dict)
    (responses : Nat → Content) :
    (fredGet self st now thr location restArgs kwargs responses).output
      = (retryLoop (getKeywords self.api_key self.xml location kwargs).2
          responses 0 3).1 := rfl

theorem handle_errors_json429 (c : Content)
    (h : dictGet c.jsonFields "error_code" = some (JVal.num 429)) :
    handle_errors false c = (true, some (JVal.num 429)) := by
  simp [handle_errors, h]

/-- C1: when every decoded response signals error_code 429 in structured
mode, dispatch makes exactly 4 HTTP attempts (3 retries), with a fixed
300 second sleep between consecutive attempts (and one more after the
final failed attempt, see C10), and returns the still-erroneous decoded
payload of the last attempt; the embedding is a total function, so no
exception is raised. -/
theorem c1_retry_429 (self : Fred) (st : GlobalState) (now : ℚ) (thr : Bool)
    (location : String) (restArgs : List (Option String)) (kwargs : Dict)
    (responses : Nat → Content)
    (hxml : (getKeywords self.api_key self.xml location kwargs).2 = false)
    (h429 : ∀ i, dictGet (responses i).jsonFields "error_code" = some (JVal.num 429)) :
    (fredGet self st now thr location restArgs kwargs responses).attempts = 4
    ∧ (fredGet self st now thr location restArgs kwargs responses).retryEvents =
        [Event.attempt 0, Event.printRetry (some (JVal.num 429)), Event.retrySleep 300,
         Event.attempt 1, Event.printRetry (some (JVal.num 429)), Event.retrySleep 300,
         Event.attempt 2, Event.printRetry (some (JVal.num 429)), Event.retrySleep 300,
         Event.attempt 3, Event.printRetry (some (JVal.num 429)), Event.retrySleep 300]
    ∧ (fredGet self st now thr location restArgs kwargs responses).output
        = Output.parsed (responses 3).jsonFields
    ∧ dictGet (responses 3).jsonFields "error_code" = some (JVal.num 429) := by
  have key : retryLoop (getKeywords self.api_key self.xml location kwargs).2 responses 0 3
      = (Output.parsed (responses 3).jsonFields, 4,
         [Event.attempt 0, Event.printRetry (some (JVal.num 429)), Event.retrySleep 300,
          Event.attempt 1, Event.printRetry (some (JVal.num 429)), Event.retrySleep 300,
          Event.attempt 2, Event.printRetry (some (JVal.num 429)), Event.retrySleep 300,
          Event.attempt 3, Event.printRetry (some (JVal.num 429)), Event.retrySleep 300]) := by
    rw [hxml]
    simp [retryLoop, fredOutput,
      handle_errors_json429 _ (h429 0), handle_errors_json429 _ (h429 1),
      handle_errors_json429 _ (h429 2), handle_errors_json429 _ (h429 3)]
  refine ⟨?_, ?_, ?_, h429 3⟩
  · rw [fredGet_attempts_def, key]
  · rw [fredGet_retryEvents_def, key]
  · rw [fredGet_output_def, key]

/-- C1 witness: a transport that always answers error_code 429. -/
theorem c1_retry_429_witness :
    (getKeywords fred0.api_key fred0.xml "series" []).2 = false
    ∧ (fredGet fred0 { firstRequestTimestamp := none, requestCount := 0 } 0 false
        "series" [] [] (fun _ => content429)).attempts = 4
    ∧ (fredGet fred0 { firstRequestTimestamp := none, requestCount := 0 } 0 false
        "series" [] [] (fun _ => content429)).output
        = Output.parsed content429.jsonFields := by
  have hc : dictGet content429.jsonFields "error_code" = some (JVal.num 429) := by decide
  have h := c1_retry_429 fred0 { firstRequestTimestamp := none, requestCount := 0 } 0 false
    "series" [] [] (fun _ => content429) (by decide) (fun _ => hc)
  exact ⟨by decide, h.1, h.2.2.1⟩

/-- The trace of the retry loop decomposes attempt by attempt: every
attempt whose decoded response is recoverable is followed by exactly the
diagnostic print and the 300 second sleep, every other attempt by
nothing. -/
theorem retryLoop_events_shape (isXml : Bool) (responses : Nat → Content) :
    ∀ (fuel idx : Nat),
      (retryLoop isXml responses idx fuel).2.2 =
        ((List.range (retryLoop isXml responses idx fuel).2.1).map (fun j =>
          if (handle_errors isXml (responses (idx + j))).1 then
            [Event.attempt (idx + j),
             Event.printRetry (handle_errors isXml (responses (idx + j))).2,
             Event.retrySleep 300]
          else [Event.attempt (idx + j)])).flatten := by
  intro fuel
  induction fuel with
  | zero =>
    intro idx
    rw [retryLoop]
    by_cases h : (handle_errors isXml (responses idx)).1 <;>
      simp [h, show List.range 1 = [0] from rfl]
  | succ f ih =>
    intro idx
    rw [retryLoop]
    by_cases h : (handle_errors isXml (responses idx)).1
    · simp only [h, if_true]
      rw [ih (idx + 1)]
      rw [List.range_succ_eq_map, List.map_cons, List.map_map, List.flatten_cons]
      simp [h, Function.comp_def, Nat.succ_eq_add_one, Nat.add_assoc, Nat.add_comm 1]
    · simp [h, show List.range 1 = [0] from rfl]

/-- C10: after every HTTP attempt whose decoded response is classified
recoverable, including the final attempt after which the retry budget is
exhausted, dispatch emits the diagnostic print and sleeps the fixed 300
seconds before returning the erroneous payload: the retry trace of every
dispatch call decomposes attempt by attempt with exactly these two events
after each recoverable attempt and nothing after any other attempt. -/
theorem c10_print_sleep_after_recoverable (self : Fred) (st : GlobalState) (now : ℚ)
    (thr : Bool) (location : String) (restArgs : List (Option String)) (kwargs : Dict)
    (responses : Nat → Content) :
    (fredGet self st now thr location restArgs kwargs responses).retryEvents =
      ((List.range (fredGet self st now thr location restArgs kwargs responses).attempts).map
        (fun j =>
          if (handle_errors (getKeywords self.api_key self.xml location kwargs).2
                (responses j)).1 then
            [Event.attempt j,
             Event.printRetry (handle_errors (getKeywords self.api_key self.xml location
                kwargs).2 (responses j)).2,
             Event.retrySleep 300]
          else [Event.attempt j])).flatten := by
  rw [fredGet_retryEvents_def, fredGet_attempts_def]
  have h := retryLoop_events_shape (getKeywords self.api_key self.xml location kwargs).2
    responses 3 0
  simpa using h

theorem retryLoop_attempts_pos (isXml : Bool) (responses : Nat → Content)
    (fuel idx : Nat) : 1 ≤ (retryLoop isXml responses idx fuel).2.1 := by
  cases fuel with
  | zero =>
    rw [retryLoop]
    by_cases h : (handle_errors isXml (responses idx)).1 <;> simp [h]
  | succ f =>
    rw [retryLoop]
    by_cases h : (handle_errors isXml (responses idx)).1 <;> simp [h]

/-- C5: dispatch retries exactly when the decoded response signals code
429 or 500 (the error_code field in structured mode, an XML root element
named error with a code attribute in raw-text mode); on any other decoded
response, such as error_code 400, it returns the decoded payload after a
single attempt with no retry delay. -/
theorem c5_retry_iff_429_or_500 :
    (∀ (x : Bool) (c : Content),
      ((handle_errors x c).1 = true ↔
        ((x = true ∧ c.xmlRoot.tag = "error"
            ∧ (dictGet c.xmlRoot.attrs "code" = some "429"
               ∨ dictGet c.xmlRoot.attrs "code" = some "500"))
         ∨ (x = false
            ∧ (dictGet c.jsonFields "error_code" = some (JVal.num 429)
               ∨ dictGet c.jsonFields "error_code" = some (JVal.num 500))))))
    ∧ (∀ (self : Fred) (st : GlobalState) (now : ℚ) (thr : Bool) (location : String)
        (restArgs : List (Option String)) (kwargs : Dict) (responses : Nat → Content),
        (handle_errors (getKeywords self.api_key self.xml location kwargs).2
            (responses 0)).1 = false →
          (fredGet self st now thr location restArgs kwargs responses).attempts = 1
          ∧ (fredGet self st now thr location restArgs kwargs responses).retryEvents
              = [Event.attempt 0]
          ∧ (fredGet self st now thr location restArgs kwargs responses).output
              = fredOutput (getKeywords self.api_key self.xml location kwargs).2
                  (responses 0))
    ∧ (∀ (self : Fred) (st : GlobalState) (now : ℚ) (thr : Bool) (location : String)
        (restArgs : List (Option String)) (kwargs : Dict) (responses : Nat → Content),
        (handle_errors (getKeywords self.api_key self.xml location kwargs).2
            (responses 0)).1 = true →
          2 ≤ (fredGet self st now thr location restArgs kwargs responses).attempts) := by
  refine ⟨?_, ?_, ?_⟩
  · intro x c
    cases x with
    | true =>
      by_cases h1 : c.xmlRoot.tag = "error"
      · by_cases h2 : dictGet c.xmlRoot.attrs "code" = some "429"
            ∨ dictGet c.xmlRoot.attrs "code" = some "500"
        · simp [handle_errors, h1, h2]
        · simp [handle_errors, h1, h2]
      · simp [handle_errors, h1]
    | false =>
      cases hv : dictGet c.jsonFields "error_code" with
      | none => simp [handle_errors, hv]
      | some v =>
        by_cases h2 : v = JVal.num 429 ∨ v = JVal.num 500
        · simp [handle_errors, hv, h2]
        · simp [handle_errors, hv, h2]
  · intro self st now thr location restArgs kwargs responses hz
    have key : retryLoop (getKeywords self.api_key self.xml location kwargs).2 responses 0 3
        = (fredOutput (getKeywords self.api_key self.xml location kwargs).2 (responses 0), 1,
           [Event.attempt 0]) := by
      rw [retryLoop]
      simp [hz]
    exact ⟨by rw [fredGet_attempts_def, key], by rw [fredGet_retryEvents_def, key],
      by rw [fredGet_output_def, key]⟩
  · intro self st now thr location restArgs kwargs responses hz
    have key : retryLoop (getKeywords self.api_key self.xml location kwargs).2 responses 0 3
        = ((retryLoop (getKeywords self.api_key self.xml location kwargs).2 responses 1 2).1,
           (retryLoop (getKeywords self.api_key self.xml location kwargs).2
              responses 1 2).2.1 + 1,
           Event.attempt 0 :: Event.printRetry (handle_errors
              (getKeywords self.api_key self.xml location kwargs).2 (responses 0)).2
             :: Event.retrySleep 300
             :: (retryLoop (getKeywords self.api_key self.xml location kwargs).2
                  responses 1 2).2.2) := by
      rw [retryLoop]
      simp [hz]
    rw [fredGet_attempts_def, key]
    show 2 ≤ (retryLoop (getKeywords self.api_key self.xml location kwargs).2
        responses 1 2).2.1 + 1
    have hp := retryLoop_attempts_pos (getKeywords self.api_key self.xml location kwargs).2
      responses 2 1
    omega

/-- C5 witness: a decoded error_code 400 response in structured mode, and
a decoded error_code 429 response triggering a retry. -/
theorem c5_retry_iff_429_or_500_witness :
    (handle_errors (getKeywords fred0.api_key fred0.xml "series" []).2 content400).1 = false
    ∧ (fredGet fred0 { firstRequestTimestamp := none, requestCount := 0 } 0 false
        "series" [] [] (fun _ => content400)).attempts = 1
    ∧ (fredGet fred0 { firstRequestTimestamp := none, requestCount := 0 } 0 false
        "series" [] [] (fun _ => content400)).retryEvents = [Event.attempt 0]
    ∧ (handle_errors (getKeywords fred0.api_key fred0.xml "series" []).2 content429).1 = true
    ∧ 2 ≤ (fredGet fred0 { firstRequestTimestamp := none, requestCount := 0 } 0 false
        "series" [] [] (fun _ => content429)).attempts := by
  have h := c5_retry_iff_429_or_500.2.1 fred0
    { firstRequestTimestamp := none, requestCount := 0 } 0 false
    "series" [] [] (fun _ => content400) (by decide)
  have h2 := c5_retry_iff_429_or_500.2.2 fred0
    { firstRequestTimestamp := none, requestCount := 0 } 0 false
    "series" [] [] (fun _ => content429) (by decide)
  exact ⟨by decide, h.1, h.2.1, by decide, h2⟩

theorem retryLoop_no_throttle_events (isXml : Bool) (responses : Nat → Content) :
    ∀ (fuel idx : Nat),
      ((retryLoop isXml responses idx fuel).2.2).filter Event.isThrottleEvent = [] := by
  intro fuel
  induction fuel with
  | zero =>
    intro idx
    rw [retryLoop]
    by_cases h : (handle_errors isXml (responses idx)).1 <;>
      simp [h, Event.isThrottleEvent]
  | succ f ih =>
    intro idx
    rw [retryLoop]
    by_cases h : (handle_errors isXml (responses idx)).1 <;>
      simp [h, Event.isThrottleEvent, ih (idx + 1)]

/-- C6: a dispatch call made while the shared request count is at most 1
computes no throttle delay and sleeps none, whatever the value of the
throttle argument: its event trace contains no throttle event at all. -/
theorem c6_no_throttle_below_two (self : Fred) (st : GlobalState) (now : ℚ) (thr : Bool)
    (location : String) (restArgs : List (Option String)) (kwargs : Dict)
    (responses : Nat → Content) (h : st.requestCount ≤ 1) :
    (fredGet self st now thr location restArgs kwargs responses).throttleEvents = []
    ∧ ((fredGet self st now thr location restArgs kwargs responses).events).filter
        Event.isThrottleEvent = [] := by
  obtain ⟨ts, rc⟩ := st
  have hrc : rc ≤ 1 := h
  have h1 : (fredGet self ⟨ts, rc⟩ now thr location restArgs kwargs responses).throttleEvents
      = [] := by
    cases ts with
    | none =>
      show (if rc > 1 then _ else []) = []
      rw [if_neg (by omega)]
    | some t =>
      show (if rc > 1 then _ else []) = []
      rw [if_neg (by omega)]
  refine ⟨h1, ?_⟩
  show (((fredGet self ⟨ts, rc⟩ now thr location restArgs kwargs responses).throttleEvents
      ++ (fredGet self ⟨ts, rc⟩ now thr location restArgs kwargs responses).retryEvents).filter
      Event.isThrottleEvent) = []
  rw [h1, List.nil_append, fredGet_retryEvents_def]
  exact retryLoop_no_throttle_events _ _ 3 0

/-- C6 witness: the very first request of a process with throttling on. -/
theorem c6_no_throttle_below_two_witness :
    ({ firstRequestTimestamp := none, requestCount := 0 } : GlobalState).requestCount ≤ 1
    ∧ ((fredGet fred0 { firstRequestTimestamp := none, requestCount := 0 } 0 true
        "series" [] [] (fun _ => okContent)).events).filter Event.isThrottleEvent = [] :=
  ⟨by decide,
    (c6_no_throttle_below_two fred0 { firstRequestTimestamp := none, requestCount := 0 } 0 true
      "series" [] [] (fun _ => okContent) (by decide)).2⟩

theorem fredGet_state_count (self : Fred) (st : GlobalState) (now : ℚ) (thr : Bool)
    (location : String) (restArgs : List (Option String)) (kwargs : Dict)
    (responses : Nat → Content) :
    (fredGet self st now thr location restArgs kwargs responses).state.requestCount
      = st.requestCount
        + (fredGet self st now thr location restArgs kwargs responses).attempts := by
  cases h : st.firstRequestTimestamp <;> simp [fredGet, h]

theorem fredGet_state_timestamp (self : Fred) (st : GlobalState) (now : ℚ) (thr : Bool)
    (location : String) (restArgs : List (Option String)) (kwargs : Dict)
    (responses : Nat → Content) :
    (fredGet self st now thr location restArgs kwargs responses).state.firstRequestTimestamp
      = (match st.firstRequestTimestamp with
         | none => some now
         | some t => some t) := by
  cases h : st.firstRequestTimestamp <;> simp [fredGet, h]

theorem runCalls_count (st : GlobalState) (calls : List CallSpec) :
    (runCalls st calls).1.requestCount = st.requestCount + (runCalls st calls).2 := by
  induction calls generalizing st with
  | nil => simp [runCalls]
  | cons c cs ih =>
    simp only [runCalls]
    rw [ih, fredGet_state_count]
    omega

theorem runCalls_timestamp_some (st : GlobalState) (calls : List CallSpec) (t : ℚ)
    (h : st.firstRequestTimestamp = some t) :
    (runCalls st calls).1.firstRequestTimestamp = some t := by
  induction calls generalizing st with
  | nil => simpa [runCalls] using h
  | cons c cs ih =>
    simp only [runCalls]
    apply ih
    rw [fredGet_state_timestamp, h]

/-- C4: across every sequence of dispatch calls in a process, the shared
request count increases by exactly one per HTTP attempt made (retried
attempts included), and the shared first-request timestamp is assigned
exactly once, to the time of the first call (which in the source happens
before its first attempt), and is never modified by any later call. -/
theorem c4_global_request_state (st : GlobalState) (calls : List CallSpec) :
    ((runCalls st calls).1.requestCount = st.requestCount + (runCalls st calls).2)
    ∧ (∀ c cs, calls = c :: cs → st.firstRequestTimestamp = none →
        (runCalls st calls).1.firstRequestTimestamp = some c.now)
    ∧ (∀ t, st.firstRequestTimestamp = some t →
        (runCalls st calls).1.firstRequestTimestamp = some t) := by
  refine ⟨runCalls_count st calls, ?_, fun t ht => runCalls_timestamp_some st calls t ht⟩
  intro c cs hcalls hnone
  subst hcalls
  simp only [runCalls]
  apply runCalls_timestamp_some
  rw [fredGet_state_timestamp, hnone]

/-- C4 witness: a fresh process running two calls, and an already-started
process keeping its first-request timestamp. -/
theorem c4_global_request_state_witness :
    ((runCalls { firstRequestTimestamp := none, requestCount := 0 }
        [callA, callB]).1.requestCount
      = ({ firstRequestTimestamp := none, requestCount := 0 } : GlobalState).requestCount
        + (runCalls { firstRequestTimestamp := none, requestCount := 0 } [callA, callB]).2)
    ∧ (runCalls { firstRequestTimestamp := none, requestCount := 0 }
        [callA, callB]).1.firstRequestTimestamp = some callA.now
    ∧ (runCalls { firstRequestTimestamp := some 7, requestCount := 3 }
        [callA, callB]).1.firstRequestTimestamp = some 7 :=
  ⟨(c4_global_request_state { firstRequestTimestamp := none, requestCount := 0 }
      [callA, callB]).1,
   (c4_global_request_state { firstRequestTimestamp := none, requestCount := 0 }
      [callA, callB]).2.1 callA [callB] rfl rfl,
   (c4_global_request_state { firstRequestTimestamp := some 7, requestCount := 3 }
      [callA, callB]).2.2 7 rfl⟩
